import Mathlib

/-!
Shallow embedding of gulp-lambda-deploy (src/index.js): a gulp plugin that
deploys a zip artifact to AWS Lambda, optionally staging it in S3 first,
then creates or updates the function and finally upserts an alias.

The remote AWS SDK is modelled by an environment (`Env`) recording the
outcome each remote call would return; a run produces the list of remote
calls issued, in issue order, together with its final result.  JavaScript
optional fields are modelled so that the embedding preserves the truthiness
tests of the source: a missing string field and the empty string are both
falsy in the source, so string-typed optional fields use the empty string
for the absent value, while number-typed fields use `Option Nat` (with the
source test `if (params.x)` translated as `some m` with `m` nonzero).
-/

namespace GulpLambdaDeploy

/-- Raw artifact bytes (the `contents` buffer of a vinyl file). -/
abbrev Bytes := List Nat

/-- A buffered gulp vinyl file: `file.path` and `file.contents`. -/
structure FileObj where
  path : String
  contents : Bytes
deriving DecidableEq

/-- An item written into the plugin stream: a null file, a stream-backed
file (rejected by the source with a thrown error), or a buffered file. -/
inductive VinylFile
  | nullFile
  | streamFile (path : String)
  | bufferFile (f : FileObj)
deriving DecidableEq

/-- The `params.s3` block: staging bucket and key.  The source treats a
missing `bucket`/`key` as absent via truthiness, so the empty string models
the absent value. -/
structure S3Spec where
  bucket : String
  key : String
deriving DecidableEq

/-- A `subnets`/`securityGroups` value: absent, a single string, or a list
of strings (the source normalizes a string to a one-element array). -/
inductive VpcField
  | absent
  | str (s : String)
  | lst (l : List String)
deriving DecidableEq

/-- JavaScript truthiness of a `VpcField`: `undefined` and the empty string
are falsy, every other string and every array (even empty) is truthy. -/
def vpcFieldSet : VpcField → Bool
  | .absent => false
  | .str s => !(s = "")
  | .lst _ => true

/-- The normalization `typeof v === 'string' ? [v] : v` applied to a
`VpcField` (the `absent` case is never reached by the source, which guards
with truthiness; it is mapped to the empty list). -/
def vpcFieldToList : VpcField → List String
  | .absent => []
  | .str s => [s]
  | .lst l => l

/-- The plugin's `params` argument.  String-typed optional fields use `""`
for the absent value (absent and `""` are interchangeable everywhere the
source reads them, since it only tests truthiness before use);
number-typed optional fields use `Option Nat`.  `file` is the vinyl file
stored by the transform callback (absent before any file is written). -/
structure Params where
  name : String
  role : String
  handler : String
  runtime : String
  memory : Option Nat
  description : String
  timeout : Option Nat
  subnets : VpcField
  securityGroups : VpcField
  s3 : Option S3Spec
  publish : Bool
  aliasName : String
  file : Option FileObj
deriving DecidableEq

/-- The plugin's `options` argument (AWS region and profile). -/
structure Options where
  region : String
  profile : String
deriving DecidableEq

/-- The `DEFAULT_PARAMS` object of the source. -/
structure Defaults where
  handler : String
  runtime : String

def DEFAULT_PARAMS : Defaults :=
  { handler := "index.handler", runtime := "nodejs4.3" }

/-- Models `params.x || dflt` for a string-typed field. -/
def strOr (s dflt : String) : String := if s = "" then dflt else s

/-- Models `if (params.x) lamparams.X = params.x` for a number-typed field: the
field is sent exactly when it is provided and nonzero (zero is falsy). -/
def natOpt : Option Nat → Option Nat
  | some m => if m = 0 then none else some m
  | none => none

/-- Models `if (params.x) lamparams.X = params.x` for a string-typed field. -/
def strOpt (s : String) : Option String := if s = "" then none else some s

/-- The `VpcConfig` value built by the source. -/
structure Vpc where
  SubnetIds : List String
  SecurityGroupIds : List String
deriving DecidableEq

/-- The conditional `VpcConfig` assignment shared by the configuration
update and the creation call (lines 183-188 and 223-228 of index.js). -/
def mkVpc (params : Params) : Option Vpc :=
  if vpcFieldSet params.subnets && vpcFieldSet params.securityGroups then
    some { SubnetIds := vpcFieldToList params.subnets,
           SecurityGroupIds := vpcFieldToList params.securityGroups }
  else none

/-- The `lamparams` object of `updateFunctionConfiguration`. -/
structure ConfigCallParams where
  FunctionName : String
  Role : String
  Handler : String
  Runtime : String
  MemorySize : Option Nat
  Description : Option String
  Timeout : Option Nat
  VpcConfig : Option Vpc
deriving DecidableEq

/-- The `lamparams` object of `updateFunctionCode`: the function name, the
publish flag, and exactly one code source (S3 reference or raw zip bytes),
modelled by optional fields as in the source objects. -/
structure CodeCallParams where
  FunctionName : String
  Publish : Bool
  S3Bucket : Option String
  S3Key : Option String
  ZipFile : Option Bytes
deriving DecidableEq

/-- The `code` object assembled by `createFunction`. -/
structure CodeValue where
  S3Bucket : Option String
  S3Key : Option String
  ZipFile : Option Bytes
deriving DecidableEq

/-- The `lamparams` object of `createFunction`. -/
structure CreateCallParams where
  Code : CodeValue
  FunctionName : String
  Handler : String
  Runtime : String
  Role : String
  Publish : Bool
  MemorySize : Option Nat
  Description : Option String
  Timeout : Option Nat
  VpcConfig : Option Vpc
deriving DecidableEq

/-- Builds the configuration-update parameters (index.js lines 168-188). -/
def mkConfigParams (params : Params) : ConfigCallParams :=
  { FunctionName := params.name
    Role := params.role
    Handler := strOr params.handler DEFAULT_PARAMS.handler
    Runtime := strOr params.runtime DEFAULT_PARAMS.runtime
    MemorySize := natOpt params.memory
    Description := strOpt params.description
    Timeout := natOpt params.timeout
    VpcConfig := mkVpc params }

/-- Builds the code-update parameters (index.js lines 148-158). -/
def mkCodeParams (params : Params) (file : FileObj) : CodeCallParams :=
  match params.s3 with
  | some s3spec =>
    { FunctionName := params.name, Publish := params.publish,
      S3Bucket := some s3spec.bucket, S3Key := some s3spec.key, ZipFile := none }
  | none =>
    { FunctionName := params.name, Publish := params.publish,
      S3Bucket := none, S3Key := none, ZipFile := some file.contents }

/-- Builds the `code` object of the creation call (index.js lines 199-205). -/
def mkCode (params : Params) (file : FileObj) : CodeValue :=
  match params.s3 with
  | some s3spec =>
    { S3Bucket := some s3spec.bucket, S3Key := some s3spec.key, ZipFile := none }
  | none =>
    { S3Bucket := none, S3Key := none, ZipFile := some file.contents }

/-- Builds the creation parameters (index.js lines 198-228). -/
def mkCreateParams (params : Params) (file : FileObj) : CreateCallParams :=
  { Code := mkCode params file
    FunctionName := params.name
    Handler := strOr params.handler DEFAULT_PARAMS.handler
    Runtime := strOr params.runtime DEFAULT_PARAMS.runtime
    Role := params.role
    Publish := params.publish
    MemorySize := natOpt params.memory
    Description := strOpt params.description
    Timeout := natOpt params.timeout
    VpcConfig := mkVpc params }

/-- An AWS SDK error: carries an error `code` (consulted by the alias
lookup) and a `message` (what the plugin reports). -/
structure AwsError where
  code : String
  message : String
deriving DecidableEq

/-- The outcome of a remote call: resolve or reject. -/
inductive Res (α : Type)
  | ok (a : α)
  | err (e : AwsError)
deriving DecidableEq

/-- The data object returned by a create or code-update call; only its
`Version` field is consulted (for the alias upsert). -/
structure FunctionData where
  Version : String
deriving DecidableEq

/-- The environment: the outcome each remote AWS call would return if
issued during this run. -/
structure Env where
  putObjectResult : Res Unit
  listFunctionsResult : Res (List String)
  updateConfigResult : Res Unit
  updateCodeResult : Res FunctionData
  createResult : Res FunctionData
  getAliasResult : Res Unit
  createAliasResult : Res Unit
  updateAliasResult : Res Unit

/-- A remote call, recorded with the parameters it was issued with. -/
inductive Event
  | putObject (bucket key : String) (body : Bytes)
  | listFunctions
  | updateFunctionConfiguration (p : ConfigCallParams)
  | updateFunctionCode (p : CodeCallParams)
  | createFunction (p : CreateCallParams)
  | getAlias (functionName aliasName : String)
  | createAlias (functionName functionVersion aliasName : String)
  | updateAlias (functionName functionVersion aliasName : String)
deriving DecidableEq

/-- A stage of the run: the remote calls it issues (in order) and its
outcome. -/
abbrev Trace (α : Type) := List Event × Res α

/-- Sequencing of promise stages (`.then`): on rejection the continuation
never runs; on resolution its calls follow the first stage's calls. -/
def bindT {α β : Type} (x : Trace α) (f : α → Trace β) : Trace β :=
  match x with
  | (evs, .err e) => (evs, .err e)
  | (evs, .ok a) =>
    match f a with
    | (evs2, r) => (evs ++ evs2, r)

/-- Embeds `s3upload` (index.js lines 109-122): one putObject call with the
configured bucket and key and the raw file contents. -/
def s3upload (s3spec : S3Spec) (file : FileObj) (env : Env) : Trace Unit :=
  ([Event.putObject s3spec.bucket s3spec.key file.contents], env.putObjectResult)

/-- Embeds `hasLambdaFunction` (index.js lines 124-138): one listFunctions call,
then an exact-name scan of the returned function list. -/
def hasLambdaFunction (targetFunction : String) (env : Env) : Trace Bool :=
  ([Event.listFunctions],
   match env.listFunctionsResult with
   | .ok fns => .ok (fns.any (fun f => f == targetFunction))
   | .err e => .err e)

/-- Embeds `updateFunctionCode` (index.js lines 140-166). -/
def updateFunctionCode (params : Params) (file : FileObj) (env : Env) :
    Trace FunctionData :=
  ([Event.updateFunctionCode (mkCodeParams params file)], env.updateCodeResult)

/-- Embeds `updateFunctionConfiguration` (index.js lines 168-196). -/
def updateFunctionConfiguration (params : Params) (env : Env) : Trace Unit :=
  ([Event.updateFunctionConfiguration (mkConfigParams params)],
   env.updateConfigResult)

/-- Embeds `createFunction` (index.js lines 198-236). -/
def createFunction (params : Params) (file : FileObj) (env : Env) :
    Trace FunctionData :=
  ([Event.createFunction (mkCreateParams params file)], env.createResult)

/-- Embeds `getAlias` (index.js lines 238-252): rejects on any error other than
`ResourceNotFoundException`; on that specific error it resolves with the
(null) data, so the caller sees `none`; on success the alias data object is
truthy, so the caller sees `some`. -/
def getAlias (params : Params) (env : Env) : Trace (Option Unit) :=
  ([Event.getAlias params.name params.aliasName],
   match env.getAliasResult with
   | .ok d => .ok (some d)
   | .err e =>
     if e.code = "ResourceNotFoundException" then .ok none else .err e)

/-- Embeds `createAlias` (index.js lines 254-267). -/
def createAlias (params : Params) (version : String) (env : Env) : Trace Unit :=
  ([Event.createAlias params.name version params.aliasName],
   env.createAliasResult)

/-- Embeds `updateAlias` (index.js lines 269-282). -/
def updateAlias (params : Params) (version : String) (env : Env) : Trace Unit :=
  ([Event.updateAlias params.name version params.aliasName],
   env.updateAliasResult)

/-- Embeds `upsertAlias` (index.js lines 284-295): look up the alias, create it
when the lookup came back empty, update it otherwise. -/
def upsertAlias (params : Params) (version : String) (env : Env) : Trace Unit :=
  bindT (getAlias params env) (fun a =>
    match a with
    | none => createAlias params version env
    | some _ => updateAlias params version env)

/-- The first stage of the flush chain (index.js lines 78-82): upload to S3
when `params.s3` is configured, otherwise do nothing. -/
def stageArtifact (params : Params) (file : FileObj) (env : Env) : Trace Unit :=
  match params.s3 with
  | some s3spec => s3upload s3spec file env
  | none => ([], .ok ())

/-- The create-or-update branch of the flush chain (index.js lines 86-94):
when the function exists, update configuration then code; otherwise create. -/
def reconcileFunction (params : Params) (file : FileObj) (hasFunction : Bool)
    (env : Env) : Trace FunctionData :=
  if hasFunction then
    bindT (updateFunctionConfiguration params env) (fun _ =>
      updateFunctionCode params file env)
  else
    createFunction params file env

/-- The alias stage of the flush chain (index.js lines 95-98): upsert only
when `params.alias` is truthy. -/
def aliasStage (params : Params) (fd : FunctionData) (env : Env) : Trace Unit :=
  if params.aliasName = "" then ([], .ok ())
  else upsertAlias params fd.Version env

/-- The promise chain of `flush` (index.js lines 78-99). -/
def flushChain (params : Params) (file : FileObj) (env : Env) : Trace Unit :=
  bindT (stageArtifact params file env) (fun _ =>
    bindT (hasLambdaFunction params.name env) (fun hasFunction =>
      bindT (reconcileFunction params file hasFunction env) (fun upserted =>
        aliasStage params upserted env)))

/-- Why a run failed: no file was written, the file is not a zip, a
validation error was thrown at plugin construction, a stream file was
written, or a remote call rejected. -/
inductive Failure
  | noCode
  | notZip
  | validation (msg : String)
  | streamContent
  | remote (e : AwsError)
deriving DecidableEq

/-- How a run ends: on success the stored file is pushed downstream. -/
inductive RunResult
  | success (pushed : FileObj)
  | failure (f : Failure)
deriving DecidableEq

/-- Models `file.path.slice(-4)`: the last four characters (the whole string when
it is shorter than four characters). -/
def slice4 (s : String) : String :=
  String.mk (s.data.drop (s.length - 4))

/-- Embeds `flush` (index.js lines 59-104): fail when no file was stored or the
stored path does not end in `.zip`, then run the promise chain; on success
push the stored file downstream. -/
def flush (params : Params) (env : Env) : List Event × RunResult :=
  match params.file with
  | none => ([], .failure .noCode)
  | some file =>
    if slice4 file.path = ".zip" then
      match flushChain params file env with
      | (evs, .ok _) => (evs, .success file)
      | (evs, .err e) => (evs, .failure (.remote e))
    else ([], .failure .notZip)

/-- The synchronous validation of `module.exports` (index.js lines 17-32),
returning the message of the first thrown error, if any. -/
def validate (params : Params) (options : Options) : Option String :=
  if params.name = "" then some "No Lambda function name provided"
  else if params.role = "" then some "No Lambda role provided"
  else if options.region = "" then some "No AWS region provided"
  else if options.profile = "" then some "No AWS profile provided"
  else
    match params.s3 with
    | some s3spec =>
      if s3spec.bucket = "" then
        some "If uploading via S3, a bucket must be provided"
      else if s3spec.key = "" then
        some "If uploading via S3, a key must be provided"
      else if params.aliasName != "" && !params.publish then
        some "An alias was provided but publish was false."
      else none
    | none =>
      if params.aliasName != "" && !params.publish then
        some "An alias was provided but publish was false."
      else none

/-- A full deployment run: validation at plugin construction, then flush. -/
def deploy (params : Params) (options : Options) (env : Env) :
    List Event × RunResult :=
  match validate params options with
  | some msg => ([], .failure (.validation msg))
  | none => flush params env

/-- The transform callback (index.js lines 46-57): a null file is skipped,
a stream file throws, a buffered file replaces the stored one. -/
def transform (stored : Option FileObj) (f : VinylFile) :
    Except String (Option FileObj) :=
  match f with
  | .nullFile => .ok stored
  | .streamFile _ => .error "Stream content is not supported"
  | .bufferFile file => .ok (some file)

/-- Folding the transform callback over a whole stream of files. -/
def transformAll (stored : Option FileObj) (files : List VinylFile) :
    Except String (Option FileObj) :=
  match files with
  | [] => .ok stored
  | f :: rest =>
    match transform stored f with
    | .ok stored2 => transformAll stored2 rest
    | .error e => .error e

/-- A whole plugin invocation: validate, feed every stream item through the
transform callback, then flush with the stored file. -/
def pluginRun (params : Params) (options : Options) (files : List VinylFile)
    (env : Env) : List Event × RunResult :=
  match validate params options with
  | some msg => ([], .failure (.validation msg))
  | none =>
    match transformAll params.file files with
    | .error _ => ([], .failure .streamContent)
    | .ok stored => flush { params with file := stored } env

/-! ## Event classifiers and concrete fixtures -/

/-- Is this event the staging upload? -/
def isPutObject : Event → Bool
  | .putObject _ _ _ => true
  | _ => false

/-- Is this event a function-level mutation (configuration update, code
update, or creation)? -/
def isFunctionMutation : Event → Bool
  | .updateFunctionConfiguration _ => true
  | .updateFunctionCode _ => true
  | .createFunction _ => true
  | _ => false

/-- Is this event an alias operation (lookup, create, or update)? -/
def isAliasCall : Event → Bool
  | .getAlias _ _ => true
  | .createAlias _ _ _ => true
  | .updateAlias _ _ _ => true
  | _ => false

/-- Is this event a creation call? -/
def isCreateCall : Event → Bool
  | .createFunction _ => true
  | _ => false

/-- A concrete zip artifact, used to instantiate the theorems. -/
def file0 : FileObj := { path := "index.zip", contents := [1, 2, 3] }

/-- A concrete valid `params` object. -/
def params0 : Params :=
  { name := "f", role := "r", handler := "", runtime := "", memory := none,
    description := "", timeout := none, subnets := .absent,
    securityGroups := .absent, s3 := none, publish := true,
    aliasName := "live", file := some file0 }

/-- A concrete valid `options` object. -/
def options0 : Options := { region := "us-east-1", profile := "default" }

/-- A concrete environment: the function exists, every call succeeds, the
alias lookup signals not-found. -/
def env0 : Env :=
  { putObjectResult := .ok (), listFunctionsResult := .ok ["f"],
    updateConfigResult := .ok (), updateCodeResult := .ok ⟨"3"⟩,
    createResult := .ok ⟨"1"⟩,
    getAliasResult := .err ⟨"ResourceNotFoundException", "nf"⟩,
    createAliasResult := .ok (), updateAliasResult := .ok () }

/-! ## Helper lemmas about the stages -/

theorem bindT_fst {α β : Type} (x : Trace α) (f : α → Trace β) :
    (bindT x f).1 = x.1 ++ match x.2 with | .ok a => (f a).1 | .err _ => [] := by
  rcases x with ⟨evs, r⟩
  cases r <;> simp [bindT]

theorem bindT_snd {α β : Type} (x : Trace α) (f : α → Trace β) :
    (bindT x f).2 = match x.2 with | .ok a => (f a).2 | .err e => .err e := by
  rcases x with ⟨evs, r⟩
  cases r <;> simp [bindT]

theorem aliasStage_fst (params : Params) (fd : FunctionData) (env : Env) :
    (aliasStage params fd env).1 =
      if params.aliasName = "" then []
      else Event.getAlias params.name params.aliasName ::
        (match env.getAliasResult with
         | .ok _ => [Event.updateAlias params.name fd.Version params.aliasName]
         | .err e =>
           if e.code = "ResourceNotFoundException" then
             [Event.createAlias params.name fd.Version params.aliasName]
           else []) := by
  unfold aliasStage upsertAlias
  split
  · rfl
  · rw [bindT_fst]
    unfold getAlias createAlias updateAlias
    rcases h : env.getAliasResult with a | e
    · simp
    · by_cases hc : e.code = "ResourceNotFoundException" <;> simp [hc]

theorem aliasStage_all_alias (params : Params) (fd : FunctionData) (env : Env) :
    ∀ e ∈ (aliasStage params fd env).1, isAliasCall e = true := by
  rw [aliasStage_fst]
  split
  · simp
  · intro e he
    rcases List.mem_cons.1 he with h | h
    · simp [h, isAliasCall]
    · revert h
      split
      · intro h; simp_all [isAliasCall]
      · split <;> intro h <;> simp_all [isAliasCall]

theorem reconcileFunction_fst (params : Params) (file : FileObj)
    (hasFunction : Bool) (env : Env) :
    (reconcileFunction params file hasFunction env).1 =
      if hasFunction then
        Event.updateFunctionConfiguration (mkConfigParams params) ::
          (match env.updateConfigResult with
           | .ok _ => [Event.updateFunctionCode (mkCodeParams params file)]
           | .err _ => [])
      else [Event.createFunction (mkCreateParams params file)] := by
  unfold reconcileFunction
  cases hasFunction
  · simp [createFunction]
  · rw [if_pos rfl, if_pos rfl, bindT_fst]
    unfold updateFunctionConfiguration updateFunctionCode
    rcases h : env.updateConfigResult with a | e <;> simp

theorem reconcileFunction_all_mut (params : Params) (file : FileObj)
    (hasFunction : Bool) (env : Env) :
    ∀ e ∈ (reconcileFunction params file hasFunction env).1,
      isFunctionMutation e = true := by
  rw [reconcileFunction_fst]
  split
  · intro e he
    rcases List.mem_cons.1 he with h | h
    · simp [h, isFunctionMutation]
    · revert h
      split <;> intro h <;> simp_all [isFunctionMutation]
  · intro e he
    simp_all [isFunctionMutation]

theorem reconcileFunction_snd_ok (params : Params) (file : FileObj)
    (hasFunction : Bool) (env : Env) (fd : FunctionData)
    (h : (reconcileFunction params file hasFunction env).2 = Res.ok fd) :
    env.updateCodeResult = Res.ok fd ∨ env.createResult = Res.ok fd := by
  unfold reconcileFunction at h
  cases hasFunction
  · right
    simpa [createFunction] using h
  · left
    rw [if_pos rfl, bindT_snd] at h
    unfold updateFunctionConfiguration updateFunctionCode at h
    rcases hc : env.updateConfigResult with a | e <;> simp [hc] at h
    exact h

theorem stageArtifact_all_put (params : Params) (file : FileObj) (env : Env) :
    ∀ e ∈ (stageArtifact params file env).1, isPutObject e = true := by
  unfold stageArtifact s3upload
  rcases params.s3 with _ | s3spec <;> simp [isPutObject]

theorem stageArtifact_snd_ok (params : Params) (file : FileObj) (env : Env)
    (h : (stageArtifact params file env).2 = Res.ok ()) :
    params.s3 = none ∨ env.putObjectResult = Res.ok () := by
  unfold stageArtifact s3upload at h
  rcases hs : params.s3 with _ | s3spec
  · exact Or.inl rfl
  · rw [hs] at h
    exact Or.inr h

theorem stageArtifact_nonempty_s3 (params : Params) (file : FileObj) (env : Env)
    (h : (stageArtifact params file env).1 ≠ []) : params.s3.isSome = true := by
  rcases hs : params.s3 with _ | s3spec
  · exact absurd (by simp [stageArtifact, hs]) h
  · rfl

theorem flush_fst_of_zip (params : Params) (file : FileObj) (env : Env)
    (hfile : params.file = some file) (hzip : slice4 file.path = ".zip") :
    (flush params env).1 = (flushChain params file env).1 := by
  unfold flush
  rw [hfile]
  rcases h : flushChain params file env with ⟨evs, r⟩
  cases r <;> simp [hzip, h]

theorem flushChain_fst (params : Params) (file : FileObj) (env : Env) :
    (flushChain params file env).1 =
      (stageArtifact params file env).1 ++
      (match (stageArtifact params file env).2 with
       | .err _ => []
       | .ok _ =>
         Event.listFunctions ::
         (match env.listFunctionsResult with
          | .err _ => []
          | .ok fns =>
            (reconcileFunction params file
              (fns.any (fun f => f == params.name)) env).1 ++
            (match (reconcileFunction params file
                (fns.any (fun f => f == params.name)) env).2 with
             | .err _ => []
             | .ok fd => (aliasStage params fd env).1))) := by
  unfold flushChain hasLambdaFunction
  simp only [bindT_fst, bindT_snd]
  rcases hstage : (stageArtifact params file env).2 with a | e
  · rcases hlist : env.listFunctionsResult with fns | e
    · rcases hrec : (reconcileFunction params file
          (fns.any (fun f => f == params.name)) env).2 with fd | e <;> simp [hrec]
    · simp
  · simp

/-! ## Claim theorems -/

/-- Claim C1: every run issues its remote calls in the fixed stage order
staging upload (only when an S3 target is configured, and before any
function-level call), then the existence lookup, then the function
mutations, then the alias calls; a stage issues calls only when every
predecessor stage succeeded, and in particular when the existence lookup
fails no configuration-update, code-update, creation, or alias call is
issued (and no compensating call of any kind exists besides these). -/
theorem stage_order_and_short_circuit (params : Params) (env : Env) :
    ∃ a b c d : List Event,
      (flush params env).1 = a ++ b ++ c ++ d ∧
      (∀ e ∈ a, isPutObject e = true) ∧
      (∀ e ∈ b, e = Event.listFunctions) ∧
      (∀ e ∈ c, isFunctionMutation e = true) ∧
      (∀ e ∈ d, isAliasCall e = true) ∧
      (a ≠ [] → params.s3.isSome = true) ∧
      (b ≠ [] → (params.s3 = none ∨ env.putObjectResult = Res.ok ())) ∧
      (c ≠ [] → ∃ fns, env.listFunctionsResult = Res.ok fns) ∧
      (d ≠ [] → params.aliasName ≠ "" ∧
        ∃ fd : FunctionData,
          env.updateCodeResult = Res.ok fd ∨ env.createResult = Res.ok fd) ∧
      (∀ e, env.listFunctionsResult = Res.err e → c = [] ∧ d = []) := by
  rcases hfile : params.file with _ | file
  · exact ⟨[], [], [], [], by simp [flush, hfile], by simp, by simp, by simp,
      by simp, by simp, by simp, by simp, by simp, by simp⟩
  · by_cases hzip : slice4 file.path = ".zip"
    · have hf := flush_fst_of_zip params file env hfile hzip
      rw [flushChain_fst] at hf
      rcases hstage : (stageArtifact params file env).2 with u | e0
      · simp only [hstage] at hf
        rcases hlist : env.listFunctionsResult with fns | e0
        · simp only [hlist] at hf
          rcases hrec : (reconcileFunction params file
              (fns.any (fun f => f == params.name)) env).2 with fd | e0
          · simp only [hrec] at hf
            refine ⟨(stageArtifact params file env).1, [Event.listFunctions],
              (reconcileFunction params file
                (fns.any (fun f => f == params.name)) env).1,
              (aliasStage params fd env).1,
              ?_, stageArtifact_all_put params file env, by simp,
              reconcileFunction_all_mut params file _ env,
              aliasStage_all_alias params fd env,
              stageArtifact_nonempty_s3 params file env,
              fun _ => stageArtifact_snd_ok params file env hstage,
              fun _ => ⟨fns, rfl⟩, ?_, ?_⟩
            · rw [hf]; simp
            · intro hd
              refine ⟨?_, fd, reconcileFunction_snd_ok params file _ env fd hrec⟩
              intro hname
              rw [aliasStage_fst, if_pos hname] at hd
              exact hd rfl
            · intro e he
              exact Res.noConfusion he
          · simp only [hrec] at hf
            refine ⟨(stageArtifact params file env).1, [Event.listFunctions],
              (reconcileFunction params file
                (fns.any (fun f => f == params.name)) env).1, [],
              ?_, stageArtifact_all_put params file env, by simp,
              reconcileFunction_all_mut params file _ env, by simp,
              stageArtifact_nonempty_s3 params file env,
              fun _ => stageArtifact_snd_ok params file env hstage,
              fun _ => ⟨fns, rfl⟩, by simp, ?_⟩
            · rw [hf]; simp
            · intro e he
              exact Res.noConfusion he
        · simp only [hlist] at hf
          refine ⟨(stageArtifact params file env).1, [Event.listFunctions], [], [],
            ?_, stageArtifact_all_put params file env, by simp, by simp, by simp,
            stageArtifact_nonempty_s3 params file env,
            fun _ => stageArtifact_snd_ok params file env hstage,
            by simp, by simp, by simp⟩
          rw [hf]; simp
      · simp only [hstage] at hf
        refine ⟨(stageArtifact params file env).1, [], [], [],
          ?_, stageArtifact_all_put params file env, by simp, by simp, by simp,
          stageArtifact_nonempty_s3 params file env,
          by simp, by simp, by simp, by simp⟩
        rw [hf]; simp
    · have h1 : (flush params env).1 = [] := by
        simp [flush, hfile, hzip]
      exact ⟨[], [], [], [], by simp [h1], by simp, by simp, by simp,
        by simp, by simp, by simp, by simp, by simp, by simp⟩

theorem stageArtifact_snd_ok_of (params : Params) (file : FileObj) (env : Env)
    (h : params.s3 = none ∨ env.putObjectResult = Res.ok ()) :
    (stageArtifact params file env).2 = Res.ok () := by
  rcases hs : params.s3 with _ | s3spec
  · simp [stageArtifact, hs]
  · rcases h with h | h
    · rw [hs] at h
      exact Option.noConfusion h
    · simp [stageArtifact, s3upload, hs, h]

theorem reconcileFunction_snd_true (params : Params) (file : FileObj) (env : Env) :
    (reconcileFunction params file true env).2 =
      match env.updateConfigResult with
      | .err e => .err e
      | .ok _ => env.updateCodeResult := by
  unfold reconcileFunction
  rw [if_pos rfl, bindT_snd]
  unfold updateFunctionConfiguration updateFunctionCode
  rcases h : env.updateConfigResult with a | e <;> simp

theorem mkCodeParams_Publish (params : Params) (file : FileObj) :
    (mkCodeParams params file).Publish = params.publish := by
  unfold mkCodeParams
  rcases params.s3 with _ | s3spec <;> rfl

/-- Claim C2: on the update path (the existence lookup returned a list
containing the target name), the run's call sequence has the
configuration-update call at a fixed position with no code-update call
anywhere before it; a code-update call is issued only if the
configuration-update call completed successfully (and then immediately
after it), and the code-update call is the one carrying the publish flag
(`ConfigCallParams` has no publish field at all, mirroring the source,
which passes `Publish` only to `updateFunctionCode`). -/
theorem config_before_code_update (params : Params) (env : Env) (file : FileObj)
    (fns : List String)
    (hfile : params.file = some file) (hzip : slice4 file.path = ".zip")
    (hstage : params.s3 = none ∨ env.putObjectResult = Res.ok ())
    (hlist : env.listFunctionsResult = Res.ok fns)
    (hhas : fns.any (fun f => f == params.name) = true) :
    ∃ pre rest,
      (flush params env).1 =
        pre ++ Event.updateFunctionConfiguration (mkConfigParams params) :: rest ∧
      (∀ cp, Event.updateFunctionCode cp ∉ pre) ∧
      (∀ cp, Event.updateFunctionCode cp ∈ (flush params env).1 →
        env.updateConfigResult = Res.ok () ∧
        cp = mkCodeParams params file ∧ cp.Publish = params.publish) ∧
      (env.updateConfigResult = Res.ok () →
        rest = Event.updateFunctionCode (mkCodeParams params file) ::
          (match env.updateCodeResult with
           | .ok fd => (aliasStage params fd env).1
           | .err _ => [])) := by
  have hstage2 := stageArtifact_snd_ok_of params file env hstage
  have hf := flush_fst_of_zip params file env hfile hzip
  rw [flushChain_fst] at hf
  simp only [hstage2, hlist, hhas, reconcileFunction_fst, if_pos,
    reconcileFunction_snd_true] at hf
  rcases hcfg : env.updateConfigResult with u | e
  · rcases hcode : env.updateCodeResult with fd | e
    · simp only [hcfg, hcode, List.cons_append, List.singleton_append,
        List.append_nil, List.nil_append] at hf
      refine ⟨(stageArtifact params file env).1 ++ [Event.listFunctions],
        Event.updateFunctionCode (mkCodeParams params file) ::
          (aliasStage params fd env).1, ?_, ?_, ?_, ?_⟩
      · rw [hf]; simp
      · intro cp hm
        rcases List.mem_append.1 hm with h | h
        · exact absurd (stageArtifact_all_put params file env _ h)
            (by simp [isPutObject])
        · rcases List.mem_cons.1 h with h | h
          · exact Event.noConfusion h
          · exact List.not_mem_nil _ h
      · intro cp hm
        rw [hf] at hm
        rcases List.mem_append.1 hm with h | h
        · exact absurd (stageArtifact_all_put params file env _ h)
            (by simp [isPutObject])
        · rcases List.mem_cons.1 h with h | h
          · exact Event.noConfusion h
          · rcases List.mem_cons.1 h with h | h
            · exact Event.noConfusion h
            · rcases List.mem_cons.1 h with h | h
              · have h2 := Event.updateFunctionCode.inj h
                exact ⟨rfl, h2, by rw [h2]; exact mkCodeParams_Publish params file⟩
              · exact absurd (aliasStage_all_alias params fd env _ h)
                  (by simp [isAliasCall])
      · intro _
        rfl
    · simp only [hcfg, hcode, List.cons_append, List.singleton_append,
        List.append_nil, List.nil_append] at hf
      refine ⟨(stageArtifact params file env).1 ++ [Event.listFunctions],
        [Event.updateFunctionCode (mkCodeParams params file)], ?_, ?_, ?_, ?_⟩
      · rw [hf]; simp
      · intro cp hm
        rcases List.mem_append.1 hm with h | h
        · exact absurd (stageArtifact_all_put params file env _ h)
            (by simp [isPutObject])
        · rcases List.mem_cons.1 h with h | h
          · exact Event.noConfusion h
          · exact List.not_mem_nil _ h
      · intro cp hm
        rw [hf] at hm
        rcases List.mem_append.1 hm with h | h
        · exact absurd (stageArtifact_all_put params file env _ h)
            (by simp [isPutObject])
        · rcases List.mem_cons.1 h with h | h
          · exact Event.noConfusion h
          · rcases List.mem_cons.1 h with h | h
            · exact Event.noConfusion h
            · rcases List.mem_cons.1 h with h | h
              · have h2 := Event.updateFunctionCode.inj h
                exact ⟨rfl, h2, by rw [h2]; exact mkCodeParams_Publish params file⟩
              · exact (List.not_mem_nil _ h).elim
      · intro _
        rfl
  · simp only [hcfg, List.cons_append, List.singleton_append,
      List.append_nil, List.nil_append] at hf
    refine ⟨(stageArtifact params file env).1 ++ [Event.listFunctions], [],
      ?_, ?_, ?_, ?_⟩
    · rw [hf]; simp
    · intro cp hm
      rcases List.mem_append.1 hm with h | h
      · exact absurd (stageArtifact_all_put params file env _ h)
          (by simp [isPutObject])
      · rcases List.mem_cons.1 h with h | h
        · exact Event.noConfusion h
        · exact List.not_mem_nil _ h
    · intro cp hm
      rw [hf] at hm
      rcases List.mem_append.1 hm with h | h
      · exact absurd (stageArtifact_all_put params file env _ h)
          (by simp [isPutObject])
      · rcases List.mem_cons.1 h with h | h
        · exact Event.noConfusion h
        · rcases List.mem_cons.1 h with h | h
          · exact Event.noConfusion h
          · exact (List.not_mem_nil _ h).elim
    · intro hok
      exact Res.noConfusion hok

/-- Witness for C2 at a concrete run: the function "f" exists, every call
succeeds, and the alias lookup signals not-found. -/
theorem config_before_code_update_witness :
    ∃ pre rest,
      (flush params0 env0).1 =
        pre ++ Event.updateFunctionConfiguration (mkConfigParams params0) :: rest ∧
      (∀ cp, Event.updateFunctionCode cp ∉ pre) ∧
      (∀ cp, Event.updateFunctionCode cp ∈ (flush params0 env0).1 →
        env0.updateConfigResult = Res.ok () ∧
        cp = mkCodeParams params0 file0 ∧ cp.Publish = params0.publish) ∧
      (env0.updateConfigResult = Res.ok () →
        rest = Event.updateFunctionCode (mkCodeParams params0 file0) ::
          (match env0.updateCodeResult with
           | .ok fd => (aliasStage params0 fd env0).1
           | .err _ => [])) :=
  config_before_code_update params0 env0 file0 ["f"] rfl (by decide)
    (Or.inl rfl) rfl (by decide)

theorem reconcileFunction_snd_false (params : Params) (file : FileObj)
    (env : Env) :
    (reconcileFunction params file false env).2 = env.createResult := by
  unfold reconcileFunction createFunction
  simp

theorem filter_create_nil_of_put (params : Params) (file : FileObj) (env : Env) :
    (stageArtifact params file env).1.filter isCreateCall = [] :=
  List.filter_eq_nil_iff.mpr (fun e he => by
    have := stageArtifact_all_put params file env e he
    cases e <;> simp_all [isPutObject, isCreateCall])

theorem filter_create_nil_of_alias (params : Params) (fd : FunctionData)
    (env : Env) :
    (aliasStage params fd env).1.filter isCreateCall = [] :=
  List.filter_eq_nil_iff.mpr (fun e he => by
    have := aliasStage_all_alias params fd env e he
    cases e <;> simp_all [isAliasCall, isCreateCall])

/-- Claim C3: on the create path (the existence lookup returned a list not
containing the target name), exactly one creation call is issued, carrying
code, name, handler, runtime, role, the publish flag and the optional
fields all in that one call, and no configuration-update or code-update
call occurs. -/
theorem create_path_single_call (params : Params) (env : Env) (file : FileObj)
    (fns : List String)
    (hfile : params.file = some file) (hzip : slice4 file.path = ".zip")
    (hstage : params.s3 = none ∨ env.putObjectResult = Res.ok ())
    (hlist : env.listFunctionsResult = Res.ok fns)
    (hno : fns.any (fun f => f == params.name) = false) :
    (flush params env).1.filter isCreateCall =
      [Event.createFunction (mkCreateParams params file)] ∧
    (∀ cp, Event.updateFunctionConfiguration cp ∉ (flush params env).1) ∧
    (∀ cp, Event.updateFunctionCode cp ∉ (flush params env).1) ∧
    (mkCreateParams params file).FunctionName = params.name ∧
    (mkCreateParams params file).Role = params.role ∧
    (mkCreateParams params file).Publish = params.publish ∧
    (mkCreateParams params file).Handler =
      strOr params.handler DEFAULT_PARAMS.handler ∧
    (mkCreateParams params file).Runtime =
      strOr params.runtime DEFAULT_PARAMS.runtime ∧
    (mkCreateParams params file).Code = mkCode params file ∧
    (mkCreateParams params file).MemorySize = natOpt params.memory ∧
    (mkCreateParams params file).Description = strOpt params.description ∧
    (mkCreateParams params file).Timeout = natOpt params.timeout ∧
    (mkCreateParams params file).VpcConfig = mkVpc params := by
  have hstage2 := stageArtifact_snd_ok_of params file env hstage
  have hf := flush_fst_of_zip params file env hfile hzip
  rw [flushChain_fst] at hf
  simp only [hstage2, hlist, hno, reconcileFunction_fst,
    reconcileFunction_snd_false, Bool.false_eq_true, if_false] at hf
  rcases hcr : env.createResult with fd | e
  · simp only [hcr, List.cons_append, List.singleton_append,
      List.append_nil, List.nil_append] at hf
    refine ⟨?_, ?_, ?_, rfl, rfl, rfl, rfl, rfl, rfl, rfl, rfl, rfl, rfl⟩
    · rw [hf]
      simp only [List.filter_append, filter_create_nil_of_put, List.filter,
        filter_create_nil_of_alias, isCreateCall]
      rfl
    · intro cp hm
      rw [hf] at hm
      rcases List.mem_append.1 hm with h | h
      · exact absurd (stageArtifact_all_put params file env _ h)
          (by simp [isPutObject])
      · rcases List.mem_cons.1 h with h | h
        · exact Event.noConfusion h
        · rcases List.mem_cons.1 h with h | h
          · exact Event.noConfusion h
          · exact absurd (aliasStage_all_alias params fd env _ h)
              (by simp [isAliasCall])
    · intro cp hm
      rw [hf] at hm
      rcases List.mem_append.1 hm with h | h
      · exact absurd (stageArtifact_all_put params file env _ h)
          (by simp [isPutObject])
      · rcases List.mem_cons.1 h with h | h
        · exact Event.noConfusion h
        · rcases List.mem_cons.1 h with h | h
          · exact Event.noConfusion h
          · exact absurd (aliasStage_all_alias params fd env _ h)
              (by simp [isAliasCall])
  · simp only [hcr, List.cons_append, List.singleton_append,
      List.append_nil, List.nil_append] at hf
    refine ⟨?_, ?_, ?_, rfl, rfl, rfl, rfl, rfl, rfl, rfl, rfl, rfl, rfl⟩
    · rw [hf]
      simp only [List.filter_append, filter_create_nil_of_put, List.filter,
        isCreateCall]
      rfl
    · intro cp hm
      rw [hf] at hm
      rcases List.mem_append.1 hm with h | h
      · exact absurd (stageArtifact_all_put params file env _ h)
          (by simp [isPutObject])
      · rcases List.mem_cons.1 h with h | h
        · exact Event.noConfusion h
        · rcases List.mem_cons.1 h with h | h
          · exact Event.noConfusion h
          · exact (List.not_mem_nil _ h).elim
    · intro cp hm
      rw [hf] at hm
      rcases List.mem_append.1 hm with h | h
      · exact absurd (stageArtifact_all_put params file env _ h)
          (by simp [isPutObject])
      · rcases List.mem_cons.1 h with h | h
        · exact Event.noConfusion h
        · rcases List.mem_cons.1 h with h | h
          · exact Event.noConfusion h
          · exact (List.not_mem_nil _ h).elim

/-- Witness for C3 at a concrete run: no function exists yet, the creation
call succeeds. -/
theorem create_path_single_call_witness :
    (flush params0 { env0 with listFunctionsResult := Res.ok [] }).1.filter
        isCreateCall =
      [Event.createFunction (mkCreateParams params0 file0)] ∧
    (∀ cp, Event.updateFunctionConfiguration cp ∉
      (flush params0 { env0 with listFunctionsResult := Res.ok [] }).1) ∧
    (∀ cp, Event.updateFunctionCode cp ∉
      (flush params0 { env0 with listFunctionsResult := Res.ok [] }).1) ∧
    (mkCreateParams params0 file0).FunctionName = params0.name ∧
    (mkCreateParams params0 file0).Role = params0.role ∧
    (mkCreateParams params0 file0).Publish = params0.publish ∧
    (mkCreateParams params0 file0).Handler =
      strOr params0.handler DEFAULT_PARAMS.handler ∧
    (mkCreateParams params0 file0).Runtime =
      strOr params0.runtime DEFAULT_PARAMS.runtime ∧
    (mkCreateParams params0 file0).Code = mkCode params0 file0 ∧
    (mkCreateParams params0 file0).MemorySize = natOpt params0.memory ∧
    (mkCreateParams params0 file0).Description = strOpt params0.description ∧
    (mkCreateParams params0 file0).Timeout = natOpt params0.timeout ∧
    (mkCreateParams params0 file0).VpcConfig = mkVpc params0 :=
  create_path_single_call params0 { env0 with listFunctionsResult := Res.ok [] }
    file0 [] rfl (by decide) (Or.inl rfl) rfl rfl

theorem reconcileFunction_mem (params : Params) (file : FileObj) (b : Bool)
    (env : Env) (e : Event)
    (he : e ∈ (reconcileFunction params file b env).1) :
    e = Event.updateFunctionConfiguration (mkConfigParams params) ∨
    e = Event.updateFunctionCode (mkCodeParams params file) ∨
    e = Event.createFunction (mkCreateParams params file) := by
  rw [reconcileFunction_fst] at he
  cases b
  · simp only [Bool.false_eq_true, if_false, List.mem_singleton] at he
    exact Or.inr (Or.inr he)
  · rw [if_pos rfl] at he
    rcases List.mem_cons.1 he with h | h
    · exact Or.inl h
    · revert h
      split <;> intro h
      · simp only [List.mem_singleton] at h
        exact Or.inr (Or.inl h)
      · exact (List.not_mem_nil _ h).elim

/-- Every remote call a run issues has one of these six shapes: the staging
upload, the existence lookup, an alias call, or a function mutation built
from the stored file by the corresponding parameter builder. -/
theorem flush_event_shapes (params : Params) (env : Env) :
    ∀ e ∈ (flush params env).1,
      isPutObject e = true ∨ e = Event.listFunctions ∨ isAliasCall e = true ∨
      (∃ file, params.file = some file ∧
        (e = Event.updateFunctionConfiguration (mkConfigParams params) ∨
         e = Event.updateFunctionCode (mkCodeParams params file) ∨
         e = Event.createFunction (mkCreateParams params file))) := by
  intro e he
  rcases hfile : params.file with _ | file
  · simp [flush, hfile] at he
  · by_cases hzip : slice4 file.path = ".zip"
    · rw [flush_fst_of_zip params file env hfile hzip, flushChain_fst] at he
      rcases hstage : (stageArtifact params file env).2 with u | e0 <;>
        simp only [hstage, List.append_nil] at he
      · rcases List.mem_append.1 he with h | h
        · exact Or.inl (stageArtifact_all_put params file env _ h)
        · rcases List.mem_cons.1 h with h | h
          · exact Or.inr (Or.inl h)
          · rcases hlist : env.listFunctionsResult with fns | e0 <;>
              simp only [hlist] at h
            · rcases List.mem_append.1 h with h | h
              · exact Or.inr (Or.inr (Or.inr ⟨file, rfl,
                  reconcileFunction_mem params file _ env e h⟩))
              · rcases hrec : (reconcileFunction params file
                    (fns.any (fun f => f == params.name)) env).2 with fd | e0 <;>
                  simp only [hrec] at h
                · exact Or.inr (Or.inr (Or.inl
                    (aliasStage_all_alias params fd env _ h)))
                · exact (List.not_mem_nil _ h).elim
            · exact (List.not_mem_nil _ h).elim
      · exact Or.inl (stageArtifact_all_put params file env _ he)
    · simp [flush, hfile, hzip] at he

/-- The claim-side predicate for C4: exactly one code representation is
present, and it is the staging reference exactly when a staging target is
configured. -/
def codeSourceExclusive (s3 : Option S3Spec)
    (S3Bucket S3Key : Option String) (ZipFile : Option Bytes) : Prop :=
  (S3Bucket.isSome = true ∧ S3Key.isSome = true ∧ ZipFile = none ∧
    ∃ s3spec, s3 = some s3spec ∧
      S3Bucket = some s3spec.bucket ∧ S3Key = some s3spec.key) ∨
  (S3Bucket = none ∧ S3Key = none ∧ ZipFile.isSome = true ∧ s3 = none)

theorem mkCodeParams_exclusive (params : Params) (file : FileObj) :
    codeSourceExclusive params.s3 (mkCodeParams params file).S3Bucket
      (mkCodeParams params file).S3Key (mkCodeParams params file).ZipFile := by
  unfold codeSourceExclusive
  rcases hs3 : params.s3 with _ | s3spec
  · right
    simp [mkCodeParams, hs3]
  · left
    simp [mkCodeParams, hs3]

theorem mkCode_exclusive (params : Params) (file : FileObj) :
    codeSourceExclusive params.s3 (mkCode params file).S3Bucket
      (mkCode params file).S3Key (mkCode params file).ZipFile := by
  unfold codeSourceExclusive
  rcases hs3 : params.s3 with _ | s3spec
  · right
    simp [mkCode, hs3]
  · left
    simp [mkCode, hs3]

/-- Claim C4: every code-carrying remote call a run issues (code update or
creation) sends exactly one code representation: the staging bucket/key
reference when `params.s3` is configured, the raw artifact bytes otherwise;
never both, never neither. -/
theorem code_source_exclusivity (params : Params) (env : Env) :
    ∀ e ∈ (flush params env).1,
      (∀ cp, e = Event.updateFunctionCode cp →
        codeSourceExclusive params.s3 cp.S3Bucket cp.S3Key cp.ZipFile) ∧
      (∀ cp, e = Event.createFunction cp →
        codeSourceExclusive params.s3 cp.Code.S3Bucket cp.Code.S3Key
          cp.Code.ZipFile) := by
  intro e he
  rcases flush_event_shapes params env e he with h | h | h | ⟨file, hfile, h3⟩
  · constructor <;> intro cp heq <;> rw [heq] at h <;> simp [isPutObject] at h
  · constructor <;> intro cp heq <;> rw [heq] at h <;> exact Event.noConfusion h
  · constructor <;> intro cp heq <;> rw [heq] at h <;> simp [isAliasCall] at h
  · rcases h3 with h3 | h3 | h3
    · constructor <;> intro cp heq <;> rw [heq] at h3 <;>
        exact Event.noConfusion h3
    · constructor <;> intro cp heq <;> rw [heq] at h3
      · cases Event.updateFunctionCode.inj h3
        exact mkCodeParams_exclusive params file
      · exact Event.noConfusion h3
    · constructor <;> intro cp heq <;> rw [heq] at h3
      · exact Event.noConfusion h3
      · cases Event.createFunction.inj h3
        exact mkCode_exclusive params file

/-- Witness for C4 at a concrete run containing a code-update call. -/
theorem code_source_exclusivity_witness :
    (∀ cp, Event.updateFunctionCode (mkCodeParams params0 file0) =
        Event.updateFunctionCode cp →
      codeSourceExclusive params0.s3 cp.S3Bucket cp.S3Key cp.ZipFile) ∧
    (∀ cp, Event.updateFunctionCode (mkCodeParams params0 file0) =
        Event.createFunction cp →
      codeSourceExclusive params0.s3 cp.Code.S3Bucket cp.Code.S3Key
        cp.Code.ZipFile) :=
  code_source_exclusivity params0 env0
    (Event.updateFunctionCode (mkCodeParams params0 file0)) (by decide)

/-- Derived view: the function data (carrying the version) that the
reconcile stage hands to the alias stage, when the run gets that far. -/
def producedVersion (params : Params) (env : Env) : Option FunctionData :=
  match env.listFunctionsResult with
  | .err _ => none
  | .ok fns =>
    if fns.any (fun f => f == params.name) then
      match env.updateConfigResult, env.updateCodeResult with
      | .ok _, .ok fd => some fd
      | _, _ => none
    else
      match env.createResult with
      | .ok fd => some fd
      | .err _ => none

theorem producedVersion_eq (params : Params) (file : FileObj) (env : Env)
    (fns : List String) (hlist : env.listFunctionsResult = Res.ok fns)
    (fd : FunctionData) :
    producedVersion params env = some fd ↔
      (reconcileFunction params file
        (fns.any (fun f => f == params.name)) env).2 = Res.ok fd := by
  unfold producedVersion
  rw [hlist]
  cases hb : fns.any (fun f => f == params.name)
  · rw [reconcileFunction_snd_false]
    rcases hcr : env.createResult with fd2 | e <;> simp [hb, hcr]
  · rw [reconcileFunction_snd_true]
    rcases hcfg : env.updateConfigResult with u | e <;>
      rcases hcode : env.updateCodeResult with fd2 | e2 <;>
        simp [hb, hcfg, hcode]

theorem aliasStage_snd (params : Params) (fd : FunctionData) (env : Env) :
    (aliasStage params fd env).2 =
      if params.aliasName = "" then .ok ()
      else
        match env.getAliasResult with
        | .ok _ => env.updateAliasResult
        | .err e =>
          if e.code = "ResourceNotFoundException" then env.createAliasResult
          else .err e := by
  unfold aliasStage upsertAlias
  split
  · rfl
  · rw [bindT_snd]
    unfold getAlias createAlias updateAlias
    rcases h : env.getAliasResult with a | e
    · simp
    · by_cases hc : e.code = "ResourceNotFoundException" <;> simp [hc]

theorem flushChain_snd (params : Params) (file : FileObj) (env : Env) :
    (flushChain params file env).2 =
      match (stageArtifact params file env).2 with
      | .err e => .err e
      | .ok _ =>
        match env.listFunctionsResult with
        | .err e => .err e
        | .ok fns =>
          match (reconcileFunction params file
              (fns.any (fun f => f == params.name)) env).2 with
          | .err e => .err e
          | .ok fd => (aliasStage params fd env).2 := by
  unfold flushChain hasLambdaFunction
  simp only [bindT_snd]
  rcases hstage : (stageArtifact params file env).2 with a | e
  · rcases hlist : env.listFunctionsResult with fns | e
    · rcases hrec : (reconcileFunction params file
          (fns.any (fun f => f == params.name)) env).2 with fd | e <;> simp [hrec]
    · simp
  · simp

theorem flush_snd_of_zip (params : Params) (file : FileObj) (env : Env)
    (hfile : params.file = some file) (hzip : slice4 file.path = ".zip") :
    (flush params env).2 =
      match (flushChain params file env).2 with
      | .ok _ => RunResult.success file
      | .err e => RunResult.failure (.remote e) := by
  unfold flush
  rw [hfile]
  rcases h : flushChain params file env with ⟨evs, r⟩
  cases r <;> simp [hzip, h]

theorem filter_alias_nil_of_put (params : Params) (file : FileObj) (env : Env) :
    (stageArtifact params file env).1.filter isAliasCall = [] :=
  List.filter_eq_nil_iff.mpr (fun e he => by
    have := stageArtifact_all_put params file env e he
    cases e <;> simp_all [isPutObject, isAliasCall])

theorem filter_alias_nil_of_mut (params : Params) (file : FileObj) (b : Bool)
    (env : Env) :
    (reconcileFunction params file b env).1.filter isAliasCall = [] :=
  List.filter_eq_nil_iff.mpr (fun e he => by
    have := reconcileFunction_all_mut params file b env e he
    cases e <;> simp_all [isFunctionMutation, isAliasCall])

/-- Claim C5: when no alias name is declared, a run performs no alias
operation at all; when an alias name is declared and the reconcile stage
produced a version, the alias calls of the run are exactly a lookup
followed by one update-alias call to that version when the lookup
succeeded, exactly a lookup followed by one create-alias call to that
version when the lookup failed with ResourceNotFoundException, and exactly
the lookup alone when the lookup failed with any other error, in which
case that error is the run's failure (propagated). -/
theorem alias_upsert_behavior (params : Params) (env : Env) :
    (params.aliasName = "" → ∀ e ∈ (flush params env).1, isAliasCall e = false) ∧
    (∀ file fd, params.file = some file → slice4 file.path = ".zip" →
      (params.s3 = none ∨ env.putObjectResult = Res.ok ()) →
      params.aliasName ≠ "" →
      producedVersion params env = some fd →
      ((env.getAliasResult = Res.ok () →
        (flush params env).1.filter isAliasCall =
          [Event.getAlias params.name params.aliasName,
           Event.updateAlias params.name fd.Version params.aliasName]) ∧
       (∀ er, env.getAliasResult = Res.err er →
          er.code = "ResourceNotFoundException" →
          (flush params env).1.filter isAliasCall =
            [Event.getAlias params.name params.aliasName,
             Event.createAlias params.name fd.Version params.aliasName]) ∧
       (∀ er, env.getAliasResult = Res.err er →
          er.code ≠ "ResourceNotFoundException" →
          (flush params env).1.filter isAliasCall =
            [Event.getAlias params.name params.aliasName] ∧
          (flush params env).2 = RunResult.failure (Failure.remote er)))) := by
  constructor
  · intro hname e he
    rcases hfile : params.file with _ | file
    · simp [flush, hfile] at he
    · by_cases hzip : slice4 file.path = ".zip"
      · rw [flush_fst_of_zip params file env hfile hzip, flushChain_fst] at he
        rcases hstage : (stageArtifact params file env).2 with u | e0 <;>
          simp only [hstage, List.append_nil] at he
        · rcases List.mem_append.1 he with h | h
          · have := stageArtifact_all_put params file env _ h
            cases e <;> simp_all [isPutObject, isAliasCall]
          · rcases List.mem_cons.1 h with h | h
            · rw [h]; rfl
            · rcases hlist : env.listFunctionsResult with fns | e0 <;>
                simp only [hlist] at h
              · rcases List.mem_append.1 h with h | h
                · have := reconcileFunction_all_mut params file _ env _ h
                  cases e <;> simp_all [isFunctionMutation, isAliasCall]
                · rcases hrec : (reconcileFunction params file
                      (fns.any (fun f => f == params.name)) env).2 with fd | e0 <;>
                    simp only [hrec] at h
                  · rw [aliasStage_fst, if_pos hname] at h
                    exact (List.not_mem_nil _ h).elim
                  · exact (List.not_mem_nil _ h).elim
              · exact (List.not_mem_nil _ h).elim
        · have := stageArtifact_all_put params file env _ he
          cases e <;> simp_all [isPutObject, isAliasCall]
      · simp [flush, hfile, hzip] at he
  · intro file fd hfile hzip hstage hname hver
    have hstage2 := stageArtifact_snd_ok_of params file env hstage
    rcases hlist : env.listFunctionsResult with fns | e0
    · have hrec := (producedVersion_eq params file env fns hlist fd).1 hver
      have hf := flush_fst_of_zip params file env hfile hzip
      rw [flushChain_fst] at hf
      simp only [hstage2, hlist, hrec] at hf
      have hfilter : (flush params env).1.filter isAliasCall =
          (aliasStage params fd env).1 := by
        rw [hf]
        simp only [List.filter_append, filter_alias_nil_of_put, List.filter,
          filter_alias_nil_of_mut, isAliasCall, List.nil_append]
        exact List.filter_eq_self.mpr (aliasStage_all_alias params fd env)
      have hsnd := flush_snd_of_zip params file env hfile hzip
      rw [flushChain_snd] at hsnd
      simp only [hstage2, hlist, hrec, aliasStage_snd, if_neg hname] at hsnd
      refine ⟨?_, ?_, ?_⟩
      · intro hga
        rw [hfilter, aliasStage_fst, if_neg hname, hga]
      · intro er hga hrnf
        rw [hfilter, aliasStage_fst, if_neg hname, hga]
        simp [hrnf]
      · intro er hga hrnf
        constructor
        · rw [hfilter, aliasStage_fst, if_neg hname, hga]
          simp [hrnf]
        · rw [hsnd, hga]
          simp [hrnf]
    · unfold producedVersion at hver
      rw [hlist] at hver
      exact Option.noConfusion hver

/-- Claim C6: a spec that declares an alias while the publish flag is
false, or is missing the function name or the role, or has a staging block
missing its bucket or key, is rejected by validation with no remote call
issued. -/
theorem validation_rejects_before_remote_calls (params : Params)
    (options : Options) (env : Env)
    (h : (params.aliasName ≠ "" ∧ params.publish = false) ∨
      params.name = "" ∨ params.role = "" ∨
      (∃ s3spec, params.s3 = some s3spec ∧
        (s3spec.bucket = "" ∨ s3spec.key = ""))) :
    (deploy params options env).1 = [] ∧
    ∃ msg, (deploy params options env).2 =
      RunResult.failure (Failure.validation msg) := by
  suffices hv : validate params options ≠ none by
    rcases hx : validate params options with _ | msg
    · exact absurd hx hv
    · unfold deploy
      rw [hx]
      exact ⟨rfl, msg, rfl⟩
  unfold validate
  rcases hs : params.s3 with _ | s3spec <;>
    rcases h with ⟨ha, hp⟩ | h1 | h1 | ⟨s3spec2, hs3, hbk⟩ <;>
      (try rcases hbk with hbk | hbk) <;>
        repeat' split <;>
          try first
          | simp
          | simp_all [bne_iff_ne]

/-- Witness for C6: an alias is declared but publish is false. -/
theorem validation_rejects_before_remote_calls_witness :
    (deploy { params0 with publish := false } options0 env0).1 = [] ∧
    ∃ msg, (deploy { params0 with publish := false } options0 env0).2 =
      RunResult.failure (Failure.validation msg) :=
  validation_rejects_before_remote_calls { params0 with publish := false }
    options0 env0 (Or.inl ⟨by decide, rfl⟩)

/-- Claim C7: when no artifact was stored, or the stored artifact's path
does not end in ".zip", the run fails before any remote call is issued,
and the failure is not a remote-call failure. -/
theorem artifact_zip_check (params : Params) (options : Options) (env : Env)
    (h : params.file = none ∨
      ∀ file, params.file = some file → slice4 file.path ≠ ".zip") :
    (deploy params options env).1 = [] ∧
    ∃ fl, (deploy params options env).2 = RunResult.failure fl ∧
      ∀ e, fl ≠ Failure.remote e := by
  unfold deploy
  rcases hv : validate params options with _ | msg
  · rcases hfile : params.file with _ | file
    · refine ⟨?_, Failure.noCode, ?_, fun e he => Failure.noConfusion he⟩ <;>
        simp [flush, hfile]
    · rcases h with h | h
      · rw [hfile] at h
        exact Option.noConfusion h
      · have hz := h file hfile
        refine ⟨?_, Failure.notZip, ?_, fun e he => Failure.noConfusion he⟩ <;>
          simp [flush, hfile, hz]
  · exact ⟨rfl, Failure.validation msg, rfl, fun e he => Failure.noConfusion he⟩

/-- Witness for C7: no file was written into the stream. -/
theorem artifact_zip_check_witness :
    (deploy { params0 with file := none } options0 env0).1 = [] ∧
    ∃ fl, (deploy { params0 with file := none } options0 env0).2 =
      RunResult.failure fl ∧ ∀ e, fl ≠ Failure.remote e :=
  artifact_zip_check { params0 with file := none } options0 env0 (Or.inl rfl)

theorem natOpt_eq_some (o : Option Nat) (m : Nat) :
    natOpt o = some m ↔ (o = some m ∧ m ≠ 0) := by
  constructor
  · intro h
    rcases o with _ | k
    · exact Option.noConfusion h
    · simp only [natOpt] at h
      by_cases hk : k = 0
      · rw [if_pos hk] at h
        exact Option.noConfusion h
      · rw [if_neg hk] at h
        cases Option.some.inj h
        exact ⟨rfl, hk⟩
  · rintro ⟨rfl, hm⟩
    simp only [natOpt]
    rw [if_neg hm]

theorem strOpt_eq_some (s d : String) :
    strOpt s = some d ↔ (s = d ∧ d ≠ "") := by
  constructor
  · intro h
    unfold strOpt at h
    by_cases hs : s = ""
    · rw [if_pos hs] at h
      exact Option.noConfusion h
    · rw [if_neg hs] at h
      cases Option.some.inj h
      exact ⟨rfl, hs⟩
  · rintro ⟨rfl, hd⟩
    unfold strOpt
    rw [if_neg hd]

/-- Claim C8: every configuration-update call a run issues carries exactly
the parameters built from the spec: role always sent, handler and runtime
always sent with fallback to the conventional defaults when absent, and
each optional field (memory, description, timeout, VPC settings) sent
exactly when it is present (a truthy value in the spec) and omitted
otherwise, so an absent optional field is never sent. -/
theorem config_update_field_presence (params : Params) (env : Env) :
    (∀ cp, Event.updateFunctionConfiguration cp ∈ (flush params env).1 →
      cp = mkConfigParams params) ∧
    (mkConfigParams params).FunctionName = params.name ∧
    (mkConfigParams params).Role = params.role ∧
    (mkConfigParams params).Handler =
      (if params.handler = "" then DEFAULT_PARAMS.handler else params.handler) ∧
    (mkConfigParams params).Runtime =
      (if params.runtime = "" then DEFAULT_PARAMS.runtime else params.runtime) ∧
    (∀ m, (mkConfigParams params).MemorySize = some m ↔
      (params.memory = some m ∧ m ≠ 0)) ∧
    (∀ d, (mkConfigParams params).Description = some d ↔
      (params.description = d ∧ d ≠ "")) ∧
    (∀ t, (mkConfigParams params).Timeout = some t ↔
      (params.timeout = some t ∧ t ≠ 0)) ∧
    (params.memory = none → (mkConfigParams params).MemorySize = none) ∧
    (params.description = "" → (mkConfigParams params).Description = none) ∧
    (params.timeout = none → (mkConfigParams params).Timeout = none) ∧
    (¬(vpcFieldSet params.subnets = true ∧
        vpcFieldSet params.securityGroups = true) →
      (mkConfigParams params).VpcConfig = none) := by
  refine ⟨?_, rfl, rfl, rfl, rfl,
    fun m => natOpt_eq_some params.memory m,
    fun d => strOpt_eq_some params.description d,
    fun t => natOpt_eq_some params.timeout t,
    ?_, ?_, ?_, ?_⟩
  · intro cp hm
    rcases flush_event_shapes params env _ hm with h | h | h | ⟨file, hfile, h3 | h3 | h3⟩
    · simp [isPutObject] at h
    · exact Event.noConfusion h
    · simp [isAliasCall] at h
    · exact Event.updateFunctionConfiguration.inj h3
    · exact Event.noConfusion h3
    · exact Event.noConfusion h3
  · intro h
    show natOpt params.memory = none
    rw [h]
    rfl
  · intro h
    show strOpt params.description = none
    unfold strOpt
    rw [if_pos h]
  · intro h
    show natOpt params.timeout = none
    rw [h]
    rfl
  · intro h
    have hb : ¬((vpcFieldSet params.subnets &&
        vpcFieldSet params.securityGroups) = true) := by
      simp only [Bool.and_eq_true]
      exact h
    show mkVpc params = none
    unfold mkVpc
    rw [if_neg hb]

/-- Claim C9: the configuration-update and creation calls carry the same
VPC settings; VPC settings are included exactly when both the subnet field
and the security-group field are set (present with a truthy value: any
list, or a non-empty string); a spec setting exactly one of the two sends
no VPC settings and raises no validation error (validation never reads
these fields); a single string value is normalized to a one-element list. -/
theorem vpc_config_iff_both_set (params : Params) (file : FileObj)
    (options : Options) :
    (mkConfigParams params).VpcConfig = (mkCreateParams params file).VpcConfig ∧
    ((∃ v, (mkConfigParams params).VpcConfig = some v) ↔
      (vpcFieldSet params.subnets = true ∧
       vpcFieldSet params.securityGroups = true)) ∧
    (∀ v, (mkConfigParams params).VpcConfig = some v →
      v.SubnetIds = vpcFieldToList params.subnets ∧
      v.SecurityGroupIds = vpcFieldToList params.securityGroups) ∧
    (∀ s, params.subnets = VpcField.str s → vpcFieldToList params.subnets = [s]) ∧
    (∀ s, params.securityGroups = VpcField.str s →
      vpcFieldToList params.securityGroups = [s]) ∧
    (∀ a b, validate { params with subnets := a, securityGroups := b } options =
      validate params options) := by
  refine ⟨rfl, ?_, ?_, ?_, ?_, ?_⟩
  · show (∃ v, mkVpc params = some v) ↔ _
    unfold mkVpc
    by_cases hb : (vpcFieldSet params.subnets &&
        vpcFieldSet params.securityGroups) = true
    · rw [if_pos hb]
      rw [Bool.and_eq_true] at hb
      exact ⟨fun _ => hb, fun _ => ⟨_, rfl⟩⟩
    · rw [if_neg hb]
      rw [Bool.and_eq_true] at hb
      exact ⟨fun ⟨v, hv⟩ => Option.noConfusion hv, fun h => absurd h hb⟩
  · intro v hv
    have hv2 : mkVpc params = some v := hv
    unfold mkVpc at hv2
    by_cases hb : (vpcFieldSet params.subnets &&
        vpcFieldSet params.securityGroups) = true
    · rw [if_pos hb] at hv2
      cases Option.some.inj hv2
      exact ⟨rfl, rfl⟩
    · rw [if_neg hb] at hv2
      exact Option.noConfusion hv2
  · intro s h
    rw [h]
    rfl
  · intro s h
    rw [h]
    rfl
  · intro a b
    rfl

/-- Models `file.isStream()` of a stream item. -/
def isStreamFile : VinylFile → Bool
  | .streamFile _ => true
  | _ => false

/-- The buffered file carried by a stream item, if any. -/
def bufferContents : VinylFile → Option FileObj
  | .bufferFile f => some f
  | _ => none

/-- The claim-side value for C10: the last buffered file of the stream, or
the previously stored file when the stream carries none. -/
def lastPushed (stored : Option FileObj) (files : List VinylFile) :
    Option FileObj :=
  match (files.filterMap bufferContents).getLast? with
  | some f => some f
  | none => stored

theorem transformAll_ok (files : List VinylFile) (stored : Option FileObj)
    (h : ∀ f ∈ files, isStreamFile f = false) :
    transformAll stored files = Except.ok (lastPushed stored files) := by
  induction files generalizing stored with
  | nil => rfl
  | cons f rest ih =>
    cases f with
    | nullFile =>
      have h1 : transformAll stored (VinylFile.nullFile :: rest) =
          transformAll stored rest := rfl
      rw [h1, ih stored (fun g hg => h g (List.mem_cons_of_mem _ hg))]
      rfl
    | streamFile p =>
      exact absurd (h _ (List.mem_cons_self _ _)) (by simp [isStreamFile])
    | bufferFile x =>
      have h1 : transformAll stored (VinylFile.bufferFile x :: rest) =
          transformAll (some x) rest := rfl
      rw [h1, ih (some x) (fun g hg => h g (List.mem_cons_of_mem _ hg))]
      have h2 : (VinylFile.bufferFile x :: rest).filterMap bufferContents =
          x :: rest.filterMap bufferContents := by
        simp [List.filterMap_cons, bufferContents]
      unfold lastPushed
      rw [h2]
      rcases hl : (rest.filterMap bufferContents).getLast? with _ | y
      · have h3 : rest.filterMap bufferContents = [] := by
          rcases hr : rest.filterMap bufferContents with _ | ⟨z, zs⟩
          · rfl
          · rw [hr] at hl
            simp [List.getLast?] at hl
        rw [h3]
        rfl
      · have h4 : (x :: rest.filterMap bufferContents).getLast? = some y := by
          rcases hr : rest.filterMap bufferContents with _ | ⟨z, zs⟩
          · rw [hr] at hl
            exact Option.noConfusion hl
          · rw [hr] at hl
            rw [List.getLast?_cons_cons, hl]
        rw [h4]

/-- Claim C10: feeding a stream of (null or buffered) files through the
plugin stores, at each buffered file, that file in place of the previous
one, so the flush deploys only the last buffered file; and when the run
succeeds, the file pushed downstream is exactly that last buffered file. -/
theorem last_file_wins (params : Params) (options : Options)
    (files : List VinylFile) (env : Env)
    (hstream : ∀ f ∈ files, isStreamFile f = false) :
    transformAll params.file files = Except.ok (lastPushed params.file files) ∧
    ∀ evs f, pluginRun params options files env = (evs, RunResult.success f) →
      lastPushed params.file files = some f := by
  refine ⟨transformAll_ok files params.file hstream, ?_⟩
  intro evs f hrun
  unfold pluginRun at hrun
  rcases hv : validate params options with _ | msg
  · rw [hv, transformAll_ok files params.file hstream] at hrun
    rcases hst : lastPushed params.file files with _ | g
    · rw [hst] at hrun
      simp [flush] at hrun
    · rw [hst] at hrun
      unfold flush at hrun
      by_cases hz : slice4 g.path = ".zip"
      · rcases hc : flushChain { params with file := some g } g env with ⟨evs2, r⟩
        cases r <;> simp [hz, hc] at hrun
        rw [hrun.2]
      · simp [hz] at hrun
  · rw [hv] at hrun
    simp at hrun

/-- Witness for C10: a single buffered zip file flows through the stream. -/
theorem last_file_wins_witness :
    transformAll ({ params0 with file := none }).file
        [VinylFile.bufferFile file0] =
      Except.ok (lastPushed ({ params0 with file := none }).file
        [VinylFile.bufferFile file0]) ∧
    ∀ evs f, pluginRun { params0 with file := none } options0
        [VinylFile.bufferFile file0] env0 = (evs, RunResult.success f) →
      lastPushed ({ params0 with file := none }).file
        [VinylFile.bufferFile file0] = some f :=
  last_file_wins { params0 with file := none } options0
    [VinylFile.bufferFile file0] env0 (by decide)

end GulpLambdaDeploy
